import Mathlib

/-
Verification development for the YAWNING-TITAN configuration toolbox
(`yawning_titan/config/toolbox/core.py`) and the game-mode schema root
(`yawning_titan/game_modes/game_mode.py`).

The Python classes are shallowly embedded: the dynamic `Any` values that
flow through the configuration engine are modelled by the tagged union
`PyVal`, mutation becomes explicit state passing, and code paths that can
raise are modelled with `Except String`.
-/

/-- The Python runtime types that occur as configuration values. -/
inductive PyType where
  | tBool
  | tInt
  | tFloat
  | tStr
  | tNone
deriving DecidableEq, Repr

/-- A Python value as seen by the configuration engine: the payload of a
`ConfigItem` is one of `None`, `bool`, `int`, `float`, `str`.  Floats are
carried as an opaque integer payload: the toolbox core never performs
float arithmetic, it only type-checks and stringifies values. -/
inductive PyVal where
  | none
  | bool (b : Bool)
  | int (n : Int)
  | float (n : Int)
  | str (s : String)
deriving DecidableEq, Repr

/-- `type(v)` for a `PyVal`. -/
def PyVal.pyType : PyVal → PyType
  | .none => .tNone
  | .bool _ => .tBool
  | .int _ => .tInt
  | .float _ => .tFloat
  | .str _ => .tStr

/-- Python `isinstance`, including the fact that `bool` is a subclass of
`int` in Python, so `isinstance(True, int)` is `True`. -/
def isinstance (v : PyVal) (t : PyType) : Bool :=
  match v, t with
  | .bool _, .tBool => true
  | .bool _, .tInt => true
  | .int _, .tInt => true
  | .float _, .tFloat => true
  | .str _, .tStr => true
  | .none, .tNone => true
  | _, _ => false

/-- Python truthiness of a value (`if self.default:` in
`ItemTypeProperties.__post_init__`, `if self.doc:` in `to_dict`, ...). -/
def PyVal.truthy : PyVal → Bool
  | .none => false
  | .bool b => b
  | .int n => n != 0
  | .float n => n != 0
  | .str s => s ≠ ""

/-- Truthiness of an `Optional[bool]` field (`not self.allow_null`):
Python `None` is falsy. -/
def optTruthy : Option Bool → Bool
  | Option.none => false
  | Option.some b => b

/-- Rendering of a value inside an f-string (`f"Value {val} ..."`). -/
def pyValRepr : PyVal → String
  | .none => "None"
  | .bool true => "True"
  | .bool false => "False"
  | .int n => toString n
  | .float n => toString n
  | .str s => s

/-- Rendering of a type inside an f-string (`str(type(val))`); the quote
characters of CPython are dropped from the rendering. -/
def pyTypeRepr : PyType → String
  | .tBool => "<class bool>"
  | .tInt => "<class int>"
  | .tFloat => "<class float>"
  | .tStr => "<class str>"
  | .tNone => "<class NoneType>"

/-- The message built by the null check of `ItemTypeProperties.validate`:
`f"Value {val} when allow_null is not permitted."`. -/
def nullFailMsg (val : PyVal) : String :=
  "Value " ++ pyValRepr val ++ " when allow_null is not permitted."

/-- The message built by the type check of `ItemTypeProperties.validate`:
`f"Value {val} is of type {type(val)}, should be "` followed by
`" or ".join(map(str, self.allowed_types))` and `"."`. -/
def typeFailMsg (val : PyVal) (ts : List PyType) : String :=
  "Value " ++ pyValRepr val ++ " is of type " ++ pyTypeRepr val.pyType
    ++ ", should be " ++ String.intercalate " or " (ts.map pyTypeRepr) ++ "."

/-- A Python exception object.  Python's default `__eq__` on exceptions is
object identity, so distinct exception objects carry distinct `eid`s even
when their messages coincide. -/
structure PyExc where
  msg : String
  eid : Nat := 0
deriving DecidableEq, Repr

/-- `ConfigItemValidation` after its `__post_init__` has folded the
`fail_reason`/`fail_exception` constructor arguments into the
`fail_reasons`/`fail_exceptions` lists. -/
structure ConfigItemValidation where
  passed : Bool := true
  fail_reasons : List String := []
  fail_exceptions : List PyExc := []
deriving DecidableEq, Repr

/-- `ConfigItemValidation.add_validation`: sets `passed = False` and
appends the reason/exception pair unconditionally (no membership check,
unlike the group-level `ConfigGroupValidation.add_validation`). -/
def ConfigItemValidation.add_validation
    (v : ConfigItemValidation) (fail_reason : String) (exception : PyExc) :
    ConfigItemValidation :=
  { v with
    passed := false
    fail_reasons := v.fail_reasons ++ [fail_reason]
    fail_exceptions := v.fail_exceptions ++ [exception] }

/-- `ItemTypeProperties`: `allowed_types`, `allow_null` and `default` all
default to Python `None` (`Option.none` / `PyVal.none` here). -/
structure ItemTypeProperties where
  allowed_types : Option (List PyType) := Option.none
  allow_null : Option Bool := Option.none
  default : PyVal := PyVal.none
deriving DecidableEq, Repr

/-- `ItemTypeProperties.validate`.  The null check records a failure when
`not self.allow_null and val is None`.  The type check tests membership in
the hard-coded list `[int, float]` (not `self.allowed_types`, which only
feeds the message text); if it fails while `allowed_types is None`, the
message construction evaluates `map(str, None)` and the resulting
`TypeError` escapes the `except ConfigItemValidationError` handler, which
is the `Except.error` branch.  The two freshly raised exception objects of
one call are distinct, hence `eid` 0 and 1. -/
def ItemTypeProperties.validate (p : ItemTypeProperties) (val : PyVal) :
    Except String ConfigItemValidation :=
  let v0 : ConfigItemValidation := {}
  let v1 :=
    if !(optTruthy p.allow_null) && val == PyVal.none then
      v0.add_validation (nullFailMsg val) { msg := nullFailMsg val, eid := 0 }
    else v0
  if isinstance val PyType.tInt || isinstance val PyType.tFloat then
    Except.ok v1
  else
    match p.allowed_types with
    | Option.none => Except.error "TypeError: NoneType object is not iterable"
    | Option.some ts =>
        Except.ok
          (v1.add_validation (typeFailMsg val ts)
            { msg := typeFailMsg val ts, eid := 1 })

/-- `ItemTypeProperties.__post_init__`: only a truthy `default` is
validated; a failing truthy default raises its first recorded exception
(fail-fast), modelled as `Except.error` of that message. -/
def ItemTypeProperties.post_init (p : ItemTypeProperties) :
    Except String ItemTypeProperties :=
  if p.default.truthy then
    match p.validate p.default with
    | Except.error e => Except.error e
    | Except.ok v =>
        if v.passed then Except.ok p
        else
          match v.fail_exceptions with
          | [] => Except.error "IndexError"
          | e :: _ => Except.error e.msg
  else Except.ok p

/-- `ConfigItem` (a dataclass).  `properties` is modelled as mandatory:
`ConfigItem.__post_init__` dereferences `self.properties.default`, so an
item without properties cannot be constructed. -/
structure ConfigItem where
  value : PyVal
  doc : Option String := Option.none
  properties : ItemTypeProperties
  validation : ConfigItemValidation
deriving DecidableEq, Repr

/-- `ConfigItem.__post_init__` (reached through the dataclass
constructor): a `None` value is replaced by the default when the default
is truthy, then `validation` is computed over the stored value.  A raising
`properties.validate` propagates out of construction. -/
def ConfigItem.mk_init (value : PyVal) (doc : Option String)
    (props : ItemTypeProperties) : Except String ConfigItem :=
  let value := if value == PyVal.none && props.default.truthy then props.default else value
  match props.validate value with
  | Except.error e => Except.error e
  | Except.ok v =>
      Except.ok { value := value, doc := doc, properties := props, validation := v }

/-- `ConfigItem.validate`: returns a freshly computed validation of the
current value; the cached `validation` field is not updated. -/
def ConfigItem.validate (c : ConfigItem) : Except String ConfigItemValidation :=
  c.properties.validate c.value

/-- `ConfigItem.set_value`: writes `self.__dict__["value"] = value`
directly, which bypasses `__setattr__` and therefore triggers no
validation at all; the cached `validation` field is left untouched. -/
def ConfigItem.set_value (c : ConfigItem) (value : PyVal) : ConfigItem :=
  { c with value := value }

/-- Assignment `item.value = v` through `ConfigItem.__setattr__`: the
value is stored, then `self.validate()` is called — whose result is
discarded, so the cached `validation` field again stays stale.  The call
can still raise (the `TypeError` escape of `validate`), which is the
`Except.error` branch. -/
def ConfigItem.setattr_value (c : ConfigItem) (value : PyVal) :
    Except String ConfigItem :=
  match ({ c with value := value } : ConfigItem).validate with
  | Except.error e => Except.error e
  | Except.ok _ => Except.ok { c with value := value }

/-- The tree of validation results held by a `ConfigGroupValidation`: the
`_element_validation` dict maps child names to either a
`ConfigItemValidation` or a nested `ConfigGroupValidation`.  A group
validation node carries `passed`, `fail_reasons`, `fail_exceptions` and
its `element_validation` association list. -/
inductive EVal where
  | item (v : ConfigItemValidation)
  | group (passed : Bool) (fail_reasons : List String)
      (fail_exceptions : List PyExc) (elements : List (String × EVal))

/-- The `passed` attribute of a stored validation (used by
`ConfigGroupValidation.group_passed`). -/
def EVal.passedOf : EVal → Bool
  | .item v => v.passed
  | .group p _ _ _ => p

/-- The `element_validation` mapping of a validation (empty for the
item flavour, which has none). -/
def EVal.elems : EVal → List (String × EVal)
  | .item _ => []
  | .group _ _ _ els => els

/-- `ConfigGroupValidation.group_passed`:
`all(v.passed for v in self.element_validation.values())`. -/
def groupPassedL (els : List (String × EVal)) : Bool :=
  els.all (fun kv => kv.2.passedOf)

/-- `ConfigGroupValidation.add_validation`: sets `passed = False` and
appends reason and exception, each only when not already present
(`in` is string equality for the reasons and object identity — `eid`
equality — for the exceptions).  The item flavour has its own
`ConfigItemValidation.add_validation`; this one is only invoked on group
validations. -/
def EVal.add_validation (v : EVal) (fail_reason : String) (exception : PyExc) : EVal :=
  match v with
  | .group _ fr fe els =>
      .group false
        (if fail_reason ∈ fr then fr else fr ++ [fail_reason])
        (if exception ∈ fe then fe else fe ++ [exception])
        els
  | .item v => .item v

/-- `ConfigGroupValidation.add_element_validation` upserts into the
`_element_validation` dict: an existing key keeps its position, a new key
is appended (CPython dict insertion-order semantics). -/
def upsert (l : List (String × EVal)) (k : String) (v : EVal) :
    List (String × EVal) :=
  match l with
  | [] => [(k, v)]
  | (k', v') :: t => if k' == k then (k, v) :: t else (k', v') :: upsert t k v

/-- The dictionary shape produced by `ConfigGroupValidation.to_dict`:
the `"Passed"` sentinel string, a list of `fail_reasons`, or a nested
dict. -/
inductive ErrTree where
  | passedSentinel
  | reasons (rs : List String)
  | node (entries : List (String × ErrTree))

mutual
/-- The dict `d` built by the body of `ConfigGroupValidation.to_dict`
before the `root` wrapping: a `"group"` entry with the node's own
`fail_reasons` when `self.passed` is false, then one entry per element of
`element_validation` that satisfies the inclusion test.  The item case is
unreachable (`to_dict` is a `ConfigGroupValidation` method). -/
def EVal.to_dict_entries : EVal → List (String × ErrTree)
  | .item _ => []
  | .group p fr _ els =>
      (if p then [] else [("group", ErrTree.reasons fr)]) ++ entriesOfChildren els

/-- The `for e, validation in self.element_validation.items()` loop of
`to_dict`: a child group validation is included (recursively, with
`root=False`) when `not validation.group_passed or not validation.passed`;
any other child is included with its `fail_reasons` when
`not validation.passed`. -/
def entriesOfChildren : List (String × EVal) → List (String × ErrTree)
  | [] => []
  | (e, v) :: t =>
      (match v with
       | .group p' _ _ els' =>
           if !(groupPassedL els') || !p' then
             [(e, ErrTree.node (EVal.to_dict_entries v))]
           else []
       | .item iv =>
           if !iv.passed then [(e, ErrTree.reasons iv.fail_reasons)] else [])
      ++ entriesOfChildren t
end

/-- `ConfigGroupValidation.to_dict(element_name, root)`: with `root=True`
an empty `d` collapses to `{element_name: "Passed"}`, otherwise `d` is
wrapped under `element_name`; with `root=False` the bare dict `d` is
returned. -/
def EVal.to_dict (v : EVal) (element_name : String) (root : Bool) : ErrTree :=
  if root then
    if v.to_dict_entries.isEmpty then ErrTree.node [(element_name, ErrTree.passedSentinel)]
    else ErrTree.node [(element_name, ErrTree.node v.to_dict_entries)]
  else ErrTree.node v.to_dict_entries

mutual
/-- The specification-level notion of a whole validation tree passing:
the node's own `passed` flag together with every descendant's. -/
def EVal.tree_passed : EVal → Bool
  | .item v => v.passed
  | .group p _ _ els => p && treePassedList els

def treePassedList : List (String × EVal) → Bool
  | [] => true
  | (_, v) :: t => v.tree_passed && treePassedList t
end

/-- A configuration element: a `ConfigItem` or a `ConfigGroup`.  A group
holds its `doc`, its config-element attributes (the children, an ordered
attribute dictionary) and its `validation` (always group-shaped for
groups produced by the constructors of the code). -/
inductive ConfigElem where
  | item (c : ConfigItem)
  | group (doc : Option String) (children : List (String × ConfigElem))
      (validation : EVal)

mutual
/-- `element.validate()` as invoked by `ConfigGroup.validate_elements`.
For an item the freshly computed `properties.validate(value)` result is
returned and the item itself is unchanged (its cached `validation` is not
written back).  For a group, `ConfigGroup.validate` runs
`validate_elements` — which upserts each child's fresh validation into
`element_validation` — and returns `self.validation`; the group's
`passed`, `fail_reasons` and `fail_exceptions` are left untouched.  A
raising item validation propagates. -/
def ConfigElem.runValidate : ConfigElem → Except String (ConfigElem × EVal)
  | .item c =>
      match c.validate with
      | Except.error e => Except.error e
      | Except.ok v => Except.ok (.item c, .item v)
  | .group doc ch v =>
      match v with
      | .item _ => Except.error "AttributeError"
      | .group p fr fe els =>
          match runValidateList ch els with
          | Except.error e => Except.error e
          | Except.ok (ch', els') =>
              Except.ok (.group doc ch' (.group p fr fe els'), .group p fr fe els')

/-- The `for k, element in self.get_config_elements().items()` loop of
`validate_elements`, threading the `element_validation` dict through
`add_element_validation` upserts. -/
def runValidateList : List (String × ConfigElem) → List (String × EVal) →
    Except String (List (String × ConfigElem) × List (String × EVal))
  | [], els => Except.ok ([], els)
  | (k, e) :: t, els =>
      match e.runValidate with
      | Except.error err => Except.error err
      | Except.ok (e', v) =>
          match runValidateList t (upsert els k v) with
          | Except.error err => Except.error err
          | Except.ok (t', els') => Except.ok ((k, e') :: t', els')
end

/-- An external value handed to `set_from_dict`: a scalar or a nested
mapping (`type(v) == dict` distinguishes the two in the code). -/
inductive ExtVal where
  | scalar (v : PyVal)
  | dict (entries : List (String × ExtVal))

/-- Generic association-list lookup (`getattr(self, element_name, None)`
over the config-element attributes; attribute names are unique). -/
def lookupKey {α : Type} (k : String) (l : List (String × α)) : Option α :=
  match l with
  | [] => Option.none
  | (k', v) :: t => if k' == k then Option.some v else lookupKey k t

mutual
/-- The body of the `for element_name, v in config_dict.items()` loop of
`ConfigGroup.set_from_dict`, applied over all entries in order. -/
def applyData : List (String × ConfigElem) → List (String × ExtVal) →
    List (String × ConfigElem)
  | ch, [] => ch
  | ch, (k, v) :: t => applyData (applyEntryMap ch k v) t
termination_by ch data => (sizeOf data, 0)
decreasing_by all_goals (simp_wf; omega)

/-- One loop iteration: the child attribute named `k` (if any) receives
the external value `v`; every other attribute is untouched.  An absent
name (`getattr` returns `None`) matches neither `isinstance` test and the
entry is silently ignored. -/
def applyEntryMap : List (String × ConfigElem) → String → ExtVal →
    List (String × ConfigElem)
  | [], _, _ => []
  | (k', e) :: rest, k, v =>
      (if k' == k then (k', applyOne e v) else (k', e)) :: applyEntryMap rest k v
termination_by ch k v => (sizeOf v, 1 + sizeOf ch)
decreasing_by all_goals (simp_wf; omega)

/-- The two `isinstance` branches of the loop body: a dict external value
recurses into a child group with `root=False` (pure child mutation, no
validation); a scalar external value is `set_value` on a child item; the
two mismatched combinations do nothing. -/
def applyOne : ConfigElem → ExtVal → ConfigElem
  | ConfigElem.group doc gch gv, ExtVal.dict d =>
      ConfigElem.group doc (applyData gch d) gv
  | ConfigElem.item c, ExtVal.scalar s => ConfigElem.item (c.set_value s)
  | e, _ => e
termination_by e v => (sizeOf v, 0)
decreasing_by all_goals (simp_wf; omega)
end

/-- `ConfigGroup.set_from_dict(config_dict, root)`: apply every entry of
the dict to the matching child, then run a full `validate()` exactly when
`root` is true (whose raising paths propagate). -/
def ConfigElem.set_from_dict (g : ConfigElem) (config_dict : List (String × ExtVal))
    (root : Bool) : Except String ConfigElem :=
  match g with
  | ConfigElem.group doc ch gv =>
      let g' := ConfigElem.group doc (applyData ch config_dict) gv
      if root then
        match g'.runValidate with
        | Except.error e => Except.error e
        | Except.ok (g'', _) => Except.ok g''
      else Except.ok g'
  | e => Except.ok e

/-- Modelled from the spec: the Schema Root machinery of
`yawning_titan/config/core.py` (the `ConfigGroup` base that `GameMode`
relies on, with its `to_dict(values_only=True)` serialization, `set_from_dict`
with legacy translation, and content-based structural equality) and the
component groups `Red`, `Blue`, ... are not present under `src/`.  A schema
tree is a nested group of named children whose leaves carry the item
values; constraints and docs are fixed by the schema definition and play
no role in the value round-trip. -/
inductive SNode where
  | item (value : PyVal)
  | group (children : List (String × SNode))

mutual
/-- Modelled from the spec: `to_dict(values_only=True)` — "strips
`doc`/`constraints` wrappers, emitting bare scalars/nested mappings
suitable for round-tripping back through `set_from_dict`". -/
def SNode.toValuesDict : SNode → ExtVal
  | .item v => ExtVal.scalar v
  | .group ch => ExtVal.dict (toValuesDictList ch)

def toValuesDictList : List (String × SNode) → List (String × ExtVal)
  | [] => []
  | (k, n) :: t => (k, n.toValuesDict) :: toValuesDictList t
end

mutual
/-- Modelled from the spec: the Schema Root `set_from_dict` — "for each
key in `data` present as a child name: if the external value is itself a
mapping and the child is a group, recurse; if the external value is
scalar and the child is an item, call `set_value`. Unknown keys are
ignored".  Validation runs after population and does not change the
value tree, so it is omitted from the value-level model. -/
def SNode.setFromDict : SNode → ExtVal → SNode
  | .group ch, ExtVal.dict d => .group (sfdList ch d)
  | .item _, ExtVal.scalar s => .item s
  | n, _ => n
termination_by n v => (sizeOf v, 0)
decreasing_by all_goals (simp_wf; omega)

def sfdList : List (String × SNode) → List (String × ExtVal) →
    List (String × SNode)
  | ch, [] => ch
  | ch, (k, v) :: t => sfdList (sfdEntry ch k v) t
termination_by ch d => (sizeOf d, 0)
decreasing_by all_goals (simp_wf; omega)

def sfdEntry : List (String × SNode) → String → ExtVal →
    List (String × SNode)
  | [], _, _ => []
  | (k', n) :: rest, k, v =>
      (if k' == k then (k', n.setFromDict v) else (k', n)) :: sfdEntry rest k v
termination_by ch k v => (sizeOf v, 1 + sizeOf ch)
decreasing_by all_goals (simp_wf; omega)
end

mutual
/-- Two schema trees have the same shape: same child names in the same
order, items facing items and groups facing groups.  A schema root and
any tree populated over the same fixed schema are related this way. -/
def sameShape : SNode → SNode → Bool
  | .item _, .item _ => true
  | .group a, .group b => sameShapeList a b
  | _, _ => false

def sameShapeList : List (String × SNode) → List (String × SNode) → Bool
  | [], [] => true
  | (k, n) :: t, (k', n') :: t' => k == k' && sameShape n n' && sameShapeList t t'
  | _, _ => false
end

/-- No duplicates in a list of child names. -/
def keysND : List String → Bool
  | [] => true
  | k :: t => !(t.any (fun x => x == k)) && keysND t

mutual
/-- Child names are duplicate-free at every level of the tree (groups
store their children as object attributes, so names are unique). -/
def SNode.wfKeys : SNode → Bool
  | .item _ => true
  | .group ch => keysND (ch.map (fun e => e.fst)) && wfKeysList ch

def wfKeysList : List (String × SNode) → Bool
  | [] => true
  | (_, n) :: t => n.wfKeys && wfKeysList t
end

/-- Modelled from the spec: the legacy-layout translation — "a fixed
key-renaming/restructuring table" applied before the ordinary
`set_from_dict` path; "unmapped legacy keys are dropped with no error". -/
def legacyTranslate (table : List (String × String)) (d : List (String × ExtVal)) :
    List (String × ExtVal) :=
  d.filterMap (fun e =>
    match lookupKey e.fst table with
    | Option.none => Option.none
    | Option.some k' => Option.some (k', e.snd))

/-- Modelled from the spec: `create_from_mapping(data, legacy)` — a fresh
default Schema Root `d0` (the fixed schema) is populated via
`set_from_dict`, after the legacy translation when the legacy layout is
selected. -/
def createFromMapping (d0 : SNode) (table : List (String × String))
    (legacy : Bool) (data : List (String × ExtVal)) : SNode :=
  SNode.setFromDict d0
    (ExtVal.dict (if legacy then legacyTranslate table data else data))

/- Concrete fixtures used by witnesses and counterexamples. -/

/-- A strict integer constraint: `allowed_types=[int]`, `allow_null=False`,
no default. -/
def propsIntStrict : ItemTypeProperties :=
  { allowed_types := Option.some [PyType.tInt], allow_null := Option.some false }

/-- The validation that `propsIntStrict.validate` computes for `None`:
both the null check and the type check fail. -/
def vNoneBad : ConfigItemValidation :=
  { passed := false
    fail_reasons := [nullFailMsg PyVal.none, typeFailMsg PyVal.none [PyType.tInt]]
    fail_exceptions :=
      [{ msg := nullFailMsg PyVal.none, eid := 0 },
       { msg := typeFailMsg PyVal.none [PyType.tInt], eid := 1 }] }

/-- The item produced by `ConfigItem(value=1, properties=propsIntStrict)`. -/
def itemIntOne : ConfigItem :=
  { value := PyVal.int 1, doc := Option.none, properties := propsIntStrict, validation := {} }

/-- The item produced by `ConfigItem(value=None, properties=propsIntStrict)`:
its cached validation records both construction-time failures. -/
def itemBadNone : ConfigItem :=
  { value := PyVal.none, doc := Option.none, properties := propsIntStrict, validation := vNoneBad }

/-- Claim C1 counterexample.  The item `ConfigItem(value=1,
properties=propsIntStrict)` validates as passed at construction; after
`set_value(None)` completes, the stored value is `None` while the cached
validation still reports `passed=True`, although
`constraints.validate(None)` fails both checks — a stale validation is
observable after a completed write, refuting the claim. -/
theorem c1_counterexample :
    ConfigItem.mk_init (PyVal.int 1) Option.none propsIntStrict = Except.ok itemIntOne ∧
    itemIntOne.validation.passed = true ∧
    (itemIntOne.set_value PyVal.none).value = PyVal.none ∧
    (itemIntOne.set_value PyVal.none).validation.passed = true ∧
    propsIntStrict.validate PyVal.none = Except.ok vNoneBad ∧
    vNoneBad.passed = false :=
  ⟨rfl, rfl, rfl, rfl, rfl, rfl⟩

/-- Claim C1, amended.  `set_value(v)` stores `v` and leaves the cached
`validation` untouched (it writes `self.__dict__` directly, bypassing
`__setattr__`); assignment to the `value` attribute stores `v`,
recomputes a validation and discards it, so the cache is again left
stale.  The cached validation is only consistent with the value at
construction time. -/
theorem c1_amended (c : ConfigItem) (v : PyVal) :
    (c.set_value v).value = v ∧
    (c.set_value v).validation = c.validation ∧
    (∀ c', c.setattr_value v = Except.ok c' →
      c'.value = v ∧ c'.validation = c.validation) := by
  refine ⟨rfl, rfl, ?_⟩
  intro c' h
  unfold ConfigItem.setattr_value at h
  cases hv : ConfigItem.validate { c with value := v } with
  | error e => rw [hv] at h; exact absurd h (by simp)
  | ok w =>
      rw [hv] at h
      injection h with h
      subst h
      exact ⟨rfl, rfl⟩

/-- Witness for the amended C1 theorem at a concrete input. -/
theorem c1_amended_witness :
    ({ itemIntOne with value := PyVal.int 5 } : ConfigItem).value = PyVal.int 5 ∧
    ({ itemIntOne with value := PyVal.int 5 } : ConfigItem).validation = itemIntOne.validation :=
  (c1_amended itemIntOne (PyVal.int 5)).2.2 _ rfl

/-- Claim C4 counterexample.  Item-level
`ConfigItemValidation.add_validation` appends without any membership
check, so adding the same failure message/cause twice leaves two copies;
and `set_value` with the same invalid value twice records zero failure
messages (not one), since it bypasses validation entirely. -/
theorem c4_counterexample :
    (((({} : ConfigItemValidation).add_validation "dup" { msg := "dup", eid := 7 }).add_validation
        "dup" { msg := "dup", eid := 7 }).fail_reasons = ["dup", "dup"]) ∧
    ((({} : ConfigItemValidation).add_validation "dup" { msg := "dup", eid := 7 }).add_validation
        "dup" { msg := "dup", eid := 7 }).fail_exceptions =
      [{ msg := "dup", eid := 7 }, { msg := "dup", eid := 7 }] ∧
    ((itemIntOne.set_value PyVal.none).set_value PyVal.none).validation.fail_reasons = [] :=
  ⟨rfl, rfl, rfl⟩

/-- Claim C4, amended.  Only the group-level
`ConfigGroupValidation.add_validation` deduplicates: a repeated
reason/cause pair leaves the validation unchanged, and a new reason is
appended at the end (insertion order).  The item-level
`ConfigItemValidation.add_validation` appends unconditionally, and
`set_value` records no validation at all, so repeated invalid writes
leave the previously cached validation untouched. -/
theorem c4_amended (p : Bool) (fr : List String) (fe : List PyExc)
    (els : List (String × EVal)) (r : String) (e : PyExc)
    (v : ConfigItemValidation) (c : ConfigItem) (x : PyVal) :
    (EVal.add_validation (EVal.add_validation (EVal.group p fr fe els) r e) r e =
      EVal.add_validation (EVal.group p fr fe els) r e) ∧
    (r ∉ fr →
      EVal.add_validation (EVal.group p fr fe els) r e =
        EVal.group false (fr ++ [r]) (if e ∈ fe then fe else fe ++ [e]) els) ∧
    ((v.add_validation r e).fail_reasons = v.fail_reasons ++ [r]) ∧
    ((v.add_validation r e).fail_exceptions = v.fail_exceptions ++ [e]) ∧
    ((c.set_value x).validation = c.validation) := by
  refine ⟨?_, ?_, rfl, rfl, rfl⟩
  · have hr : r ∈ (if r ∈ fr then fr else fr ++ [r]) := by
      by_cases h : r ∈ fr
      · simp [h]
      · simp [h]
    have he : e ∈ (if e ∈ fe then fe else fe ++ [e]) := by
      by_cases h : e ∈ fe
      · simp [h]
      · simp [h]
    simp [EVal.add_validation, hr, he]
  · intro h
    simp [EVal.add_validation, h]

/-- Witness for the amended C4 theorem at concrete inputs. -/
theorem c4_amended_witness :
    EVal.add_validation (EVal.group true [] [] []) "m" { msg := "m", eid := 1 } =
      EVal.group false ["m"] [{ msg := "m", eid := 1 }] [] :=
  ((c4_amended true [] [] [] "m" { msg := "m", eid := 1 } {} itemIntOne PyVal.none).2.1
      (List.not_mem_nil "m")).trans (by simp)

/-- A constraint whose present default is the falsy empty string, which
violates its own type check. -/
def propsFalsyDefault : ItemTypeProperties :=
  { allowed_types := Option.some [PyType.tInt], allow_null := Option.some false,
    default := PyVal.str "" }

/-- Claim C6 counterexample.  `__post_init__` guards the default check
with Python truthiness (`if self.default:`), so construction with the
present but falsy default `""` succeeds even though that default fails
its own `validate` — a successfully constructed `ItemTypeProperties`
whose present default does not pass validation. -/
theorem c6_counterexample :
    propsFalsyDefault.post_init = Except.ok propsFalsyDefault ∧
    propsFalsyDefault.default ≠ PyVal.none ∧
    propsFalsyDefault.validate propsFalsyDefault.default =
      Except.ok
        { passed := false
          fail_reasons := [typeFailMsg (PyVal.str "") [PyType.tInt]]
          fail_exceptions := [{ msg := typeFailMsg (PyVal.str "") [PyType.tInt], eid := 1 }] } :=
  ⟨rfl, by decide, rfl⟩

/-- Claim C6, amended.  The fail-fast check only covers truthy defaults:
whenever the default is truthy, a successfully constructed
`ItemTypeProperties` has a default that passes its own `validate`; a
falsy present default (such as `False`, `0`, `0.0` or `""`) bypasses the
check entirely. -/
theorem c6_amended (p q : ItemTypeProperties) (ht : p.default.truthy = true)
    (hok : p.post_init = Except.ok q) :
    (p.validate p.default).map ConfigItemValidation.passed = Except.ok true := by
  unfold ItemTypeProperties.post_init at hok
  rw [ht] at hok
  simp only [if_true] at hok
  cases hv : p.validate p.default with
  | error e => rw [hv] at hok; exact absurd hok (by simp)
  | ok v =>
      rw [hv] at hok
      dsimp only at hok
      by_cases hp : v.passed = true
      · simp [Except.map, hp]
      · rw [Bool.not_eq_true] at hp
        rw [hp] at hok
        simp only [Bool.false_eq_true, if_false] at hok
        cases hfe : v.fail_exceptions with
        | nil => rw [hfe] at hok; exact absurd hok (by simp)
        | cons e t => rw [hfe] at hok; exact absurd hok (by simp)

/-- A constraint with a truthy default that satisfies its own checks. -/
def propsGoodDefault : ItemTypeProperties :=
  { allowed_types := Option.some [PyType.tInt], allow_null := Option.some true,
    default := PyVal.int 3 }

/-- Witness for the amended C6 theorem: a truthy default that passes. -/
theorem c6_amended_witness :
    (propsGoodDefault.validate propsGoodDefault.default).map ConfigItemValidation.passed =
      Except.ok true :=
  c6_amended propsGoodDefault propsGoodDefault rfl rfl

/-- Claim C10, confirmed.  `ConfigItem.__post_init__`: a `None` initial
value is replaced by the default exactly when the default is truthy, and
the cached validation is computed over the stored value (the default in
the truthy case, `None` in the falsy case). -/
theorem c10_confirmed (props : ItemTypeProperties) (doc : Option String) :
    (props.default.truthy = true →
      ∀ v, props.validate props.default = Except.ok v →
        ConfigItem.mk_init PyVal.none doc props =
          Except.ok { value := props.default, doc := doc, properties := props, validation := v }) ∧
    (props.default.truthy = false →
      ∀ v, props.validate PyVal.none = Except.ok v →
        ConfigItem.mk_init PyVal.none doc props =
          Except.ok { value := PyVal.none, doc := doc, properties := props, validation := v }) := by
  constructor
  · intro ht v hv
    unfold ConfigItem.mk_init
    simp only [beq_self_eq_true, Bool.true_and, ht, if_true, hv]
  · intro ht v hv
    unfold ConfigItem.mk_init
    simp only [beq_self_eq_true, Bool.true_and, ht, Bool.false_eq_true, if_false, hv]

/-- Witness for the confirmed C10 theorem: both the truthy-default and
the falsy-default branch at concrete inputs. -/
theorem c10_confirmed_witness :
    ConfigItem.mk_init PyVal.none Option.none
        { allowed_types := Option.some [PyType.tInt], allow_null := Option.some true,
          default := PyVal.int 3 } =
      Except.ok
        { value := PyVal.int 3, doc := Option.none,
          properties :=
            { allowed_types := Option.some [PyType.tInt], allow_null := Option.some true,
              default := PyVal.int 3 },
          validation := {} } ∧
    ConfigItem.mk_init PyVal.none Option.none propsIntStrict =
      Except.ok
        { value := PyVal.none, doc := Option.none, properties := propsIntStrict,
          validation := vNoneBad } :=
  ⟨(c10_confirmed
      { allowed_types := Option.some [PyType.tInt], allow_null := Option.some true,
        default := PyVal.int 3 } Option.none).1 rfl {} rfl,
   (c10_confirmed propsIntStrict Option.none).2 rfl vNoneBad rfl⟩

/-- An Int/Float constraint as used for the numeric probability items. -/
def propsNumStrict : ItemTypeProperties :=
  { allowed_types := Option.some [PyType.tInt, PyType.tFloat],
    allow_null := Option.some true }

/-- A constraint that allows only strings. -/
def propsStrOnly : ItemTypeProperties :=
  { allowed_types := Option.some [PyType.tStr], allow_null := Option.some true }

/-- Claim C2 counterexample.  `True` — a boolean — satisfies an Int/Float
constraint (`isinstance(True, int)` holds and the type check is the
hard-coded `[int, float]`), so no `TypeMismatch` is recorded although the
claim demands one; and a string value under a constraint that allows
`str` is nevertheless rejected with a `TypeMismatch`, because
`allowed_types` is never consulted by the check. -/
theorem c2_counterexample :
    propsNumStrict.validate (PyVal.bool true) = Except.ok ({} : ConfigItemValidation) ∧
    ({} : ConfigItemValidation).passed = true ∧
    ({} : ConfigItemValidation).fail_reasons = [] ∧
    propsStrOnly.validate (PyVal.str "ok") =
      Except.ok
        { passed := false
          fail_reasons := [typeFailMsg (PyVal.str "ok") [PyType.tStr]]
          fail_exceptions := [{ msg := typeFailMsg (PyVal.str "ok") [PyType.tStr], eid := 1 }] } :=
  ⟨rfl, rfl, rfl, rfl⟩

/-- Claim C2, amended.  Whenever `allowed_types` is present, `validate`
records a `TypeMismatch` failure exactly when the value is not an `int`
or `float` instance — with Python `bool` counting as an instance of
`int` — independently of `allowed_types`, which is only interpolated
into the message text.  In particular a boolean always satisfies the
numeric check and a string fails it even when `str` is allowed. -/
theorem c2_amended (p : ItemTypeProperties) (ts : List PyType) (val : PyVal) (b : Bool)
    (hts : p.allowed_types = Option.some ts) :
    ((p.validate val).map ConfigItemValidation.fail_reasons =
      Except.ok
        ((if !(optTruthy p.allow_null) && val == PyVal.none then [nullFailMsg val] else [])
          ++ (if isinstance val PyType.tInt || isinstance val PyType.tFloat then []
              else [typeFailMsg val ts]))) ∧
    ((p.validate val).map ConfigItemValidation.passed =
      Except.ok (!(!(optTruthy p.allow_null) && val == PyVal.none)
          && (isinstance val PyType.tInt || isinstance val PyType.tFloat))) ∧
    isinstance (PyVal.bool b) PyType.tInt = true := by
  refine ⟨?_, ?_, rfl⟩ <;>
  · unfold ItemTypeProperties.validate
    rw [hts]
    cases h1 : (!(optTruthy p.allow_null) && val == PyVal.none) <;>
      cases h2 : (isinstance val PyType.tInt || isinstance val PyType.tFloat) <;>
        simp [h1, h2, ConfigItemValidation.add_validation, Except.map]

/-- Witness for the amended C2 theorem at a concrete input: the allowed
string is still reported as a type mismatch. -/
theorem c2_amended_witness :
    ((propsStrOnly.validate (PyVal.str "ok")).map ConfigItemValidation.fail_reasons =
      Except.ok
        ((if !(optTruthy propsStrOnly.allow_null) && (PyVal.str "ok") == PyVal.none then
            [nullFailMsg (PyVal.str "ok")]
          else [])
          ++ (if isinstance (PyVal.str "ok") PyType.tInt
                || isinstance (PyVal.str "ok") PyType.tFloat then []
              else [typeFailMsg (PyVal.str "ok") [PyType.tStr]]))) ∧
    ((propsStrOnly.validate (PyVal.str "ok")).map ConfigItemValidation.passed =
      Except.ok (!(!(optTruthy propsStrOnly.allow_null) && (PyVal.str "ok") == PyVal.none)
          && (isinstance (PyVal.str "ok") PyType.tInt
              || isinstance (PyVal.str "ok") PyType.tFloat))) ∧
    isinstance (PyVal.bool true) PyType.tInt = true :=
  c2_amended propsStrOnly [PyType.tStr] (PyVal.str "ok") true rfl

/-- A constraint whose `allowed_types` was left at its `None` default. -/
def propsNoTypes : ItemTypeProperties := { allow_null := Option.some true }

/-- Claim C5 counterexample.  With `allowed_types` at its `None` default
and a non-numeric value, the failing type check builds its message via
`" or ".join(map(str, self.allowed_types))`, and the `TypeError` raised
by `map(str, None)` is not a `ConfigItemValidationError`, so it escapes
to the caller — `validate` does raise. -/
theorem c5_counterexample :
    propsNoTypes.validate (PyVal.str "x") =
      Except.error "TypeError: NoneType object is not iterable" :=
  rfl

/-- Whether an `Except` computation returned normally. -/
def isOkE {α β : Type} : Except α β → Bool
  | Except.ok _ => true
  | Except.error _ => false

/-- Claim C5, amended.  Whenever `allowed_types` is present, `validate`
returns a `ConfigItemValidation` and never raises; and all
simultaneously violated checks are recorded in the one result: a `None`
value under falsy `allow_null` (whose type `NoneType` is also not
`int`/`float`) yields both the null failure and the type failure in the
same call, in that order. -/
theorem c5_amended (p : ItemTypeProperties) (ts : List PyType) (val : PyVal)
    (hts : p.allowed_types = Option.some ts) :
    isOkE (p.validate val) = true ∧
    (optTruthy p.allow_null = false →
      (p.validate PyVal.none).map ConfigItemValidation.fail_reasons =
        Except.ok [nullFailMsg PyVal.none, typeFailMsg PyVal.none ts] ∧
      (p.validate PyVal.none).map ConfigItemValidation.passed = Except.ok false) := by
  constructor
  · unfold ItemTypeProperties.validate
    rw [hts]
    cases h1 : (!(optTruthy p.allow_null) && val == PyVal.none) <;>
      cases h2 : (isinstance val PyType.tInt || isinstance val PyType.tFloat) <;>
        simp [h1, h2, isOkE]
  · intro hn
    constructor <;>
    · unfold ItemTypeProperties.validate
      rw [hts]
      simp [hn, ConfigItemValidation.add_validation, Except.map, isinstance]

/-- Witness for the amended C5 theorem at a concrete input. -/
theorem c5_amended_witness :
    isOkE (propsIntStrict.validate PyVal.none) = true ∧
    (optTruthy propsIntStrict.allow_null = false →
      (propsIntStrict.validate PyVal.none).map ConfigItemValidation.fail_reasons =
        Except.ok [nullFailMsg PyVal.none, typeFailMsg PyVal.none [PyType.tInt]] ∧
      (propsIntStrict.validate PyVal.none).map ConfigItemValidation.passed =
        Except.ok false) :=
  c5_amended propsIntStrict [PyType.tInt] PyVal.none rfl

/-- A freshly constructed group whose single child item fails validation:
the state right after `ConfigGroup.__init__` has installed an empty
`ConfigGroupValidation()` and before `validate_elements` has run. -/
def groupBad : ConfigElem :=
  ConfigElem.group Option.none [("x", ConfigElem.item itemBadNone)]
    (EVal.group true [] [] [])

/-- Claim C3 counterexample.  Running `validate()` on a group with a
failing child populates `element_validation` but leaves the group's
`passed` flag at `True`: afterwards `passed = True` while
`group_passed AND all children passed` is `False`, refuting the claimed
equality. -/
theorem c3_counterexample :
    ConfigElem.runValidate groupBad =
      Except.ok
        (ConfigElem.group Option.none [("x", ConfigElem.item itemBadNone)]
          (EVal.group true [] [] [("x", EVal.item vNoneBad)]),
         EVal.group true [] [] [("x", EVal.item vNoneBad)]) ∧
    (EVal.group true [] [] [("x", EVal.item vNoneBad)]).passedOf = true ∧
    groupPassedL [("x", EVal.item vNoneBad)] = false :=
  ⟨rfl, rfl, rfl⟩

/-- Claim C3, amended.  `ConfigGroup.validate` only refreshes
`element_validation` (through `validate_elements`); the group's own
`passed`, `fail_reasons` and `fail_exceptions` are left exactly as they
were, so `passed` is not recomputed as the conjunction of the dependency
rules and the children — that conjunction is only available separately
through the `group_passed` property. -/
theorem c3_amended (doc : Option String) (ch : List (String × ConfigElem))
    (p : Bool) (fr : List String) (fe : List PyExc) (els : List (String × EVal))
    (g' : ConfigElem) (v' : EVal)
    (h : ConfigElem.runValidate (ConfigElem.group doc ch (EVal.group p fr fe els)) =
      Except.ok (g', v')) :
    ∃ ch' els', g' = ConfigElem.group doc ch' (EVal.group p fr fe els') ∧
      v' = EVal.group p fr fe els' := by
  unfold ConfigElem.runValidate at h
  dsimp only at h
  cases hl : runValidateList ch els with
  | error e => rw [hl] at h; exact absurd h (by simp)
  | ok r =>
      obtain ⟨ch2, els2⟩ := r
      rw [hl] at h
      dsimp only at h
      injection h with h
      injection h with h1 h2
      exact ⟨ch2, els2, h1.symm, h2.symm⟩

/-- A group with one valid child, mid-construction. -/
def groupGood : ConfigElem :=
  ConfigElem.group Option.none [("a", ConfigElem.item itemIntOne)]
    (EVal.group true [] [] [])

/-- Witness for the amended C3 theorem at a concrete input. -/
theorem c3_amended_witness :
    ∃ ch' els',
      ConfigElem.group Option.none [("a", ConfigElem.item itemIntOne)]
          (EVal.group true [] [] [("a", EVal.item {})]) =
        ConfigElem.group Option.none ch' (EVal.group true [] [] els') ∧
      EVal.group true [] [] [("a", EVal.item {})] = EVal.group true [] [] els' :=
  c3_amended Option.none [("a", ConfigElem.item itemIntOne)] true [] [] []
    (ConfigElem.group Option.none [("a", ConfigElem.item itemIntOne)]
      (EVal.group true [] [] [("a", EVal.item {})]))
    (EVal.group true [] [] [("a", EVal.item {})]) rfl

/-- Depth-3 tree: an inner group holding the failing leaf. -/
def groupB3 : ConfigElem :=
  ConfigElem.group Option.none [("leaf", ConfigElem.item itemBadNone)]
    (EVal.group true [] [] [])

/-- Depth-3 tree: the middle group. -/
def groupA3 : ConfigElem :=
  ConfigElem.group Option.none [("B", groupB3)] (EVal.group true [] [] [])

/-- Depth-3 tree: the root group. -/
def groupRoot3 : ConfigElem :=
  ConfigElem.group Option.none [("A", groupA3)] (EVal.group true [] [] [])

/-- The validation tree `validate()` produces for `groupRoot3`: every
`passed` flag still `True`, the failing leaf recorded three levels
down. -/
def vRoot3 : EVal :=
  EVal.group true [] []
    [("A", EVal.group true [] []
      [("B", EVal.group true [] [] [("leaf", EVal.item vNoneBad)])])]

/-- Claim C7 counterexample.  After validating the depth-3 tree whose
only leaf fails, `to_dict("root", root=True)` still returns the
`{"root": "Passed"}` sentinel: the inclusion test looks only at a child
group's `group_passed` (its grandchildren's stale `passed` flags) and
`passed`, so a failure three levels down is invisible and no entry for
the path to the failing leaf is produced — the whole tree has not
passed, refuting the claimed equivalence. -/
theorem c7_counterexample :
    (ConfigElem.runValidate groupRoot3).map Prod.snd = Except.ok vRoot3 ∧
    EVal.to_dict vRoot3 "root" true = ErrTree.node [("root", ErrTree.passedSentinel)] ∧
    EVal.tree_passed vRoot3 = false :=
  ⟨rfl, rfl, rfl⟩


/-- Unfolding equation for `entriesOfChildren` on a cons cell. -/
theorem entriesOfChildren_cons (k : String) (v : EVal) (t : List (String × EVal)) :
    entriesOfChildren ((k, v) :: t) =
      (match v with
       | EVal.group p' _ _ els' =>
           if !(groupPassedL els') || !p' then [(k, ErrTree.node v.to_dict_entries)]
           else []
       | EVal.item iv =>
           if !iv.passed then [(k, ErrTree.reasons iv.fail_reasons)] else [])
      ++ entriesOfChildren t := by
  cases v <;> rfl

/-- The dict built by `to_dict` is empty exactly when every stored child
validation passed and, for group children, every grandchild validation
passed as well — failures any deeper are not consulted. -/
theorem entriesOfChildren_eq_nil (els : List (String × EVal)) :
    entriesOfChildren els = [] ↔
      ∀ kc ∈ els, EVal.passedOf kc.2 = true ∧
        ∀ kd ∈ EVal.elems kc.2, EVal.passedOf kd.2 = true := by
  induction els with
  | nil => simp [entriesOfChildren]
  | cons hd t ih =>
      obtain ⟨k, v⟩ := hd
      rw [entriesOfChildren_cons, List.append_eq_nil, ih]
      simp only [List.mem_cons, forall_eq_or_imp]
      refine and_congr ?_ Iff.rfl
      cases v with
      | item iv =>
          cases hiv : iv.passed
          · simp [EVal.passedOf, hiv]
          · simp [EVal.passedOf, EVal.elems, hiv]
      | group p' fr' fe' els' =>
          cases hp : p' with
          | false => simp [EVal.passedOf, hp]
          | true =>
              cases hgp : groupPassedL els' with
              | false =>
                  simp only [hgp, Bool.not_false, Bool.true_or, if_true,
                    EVal.passedOf, EVal.elems]
                  constructor
                  · intro h; exact absurd h (by simp)
                  · rintro ⟨-, hall⟩
                    have hgt : groupPassedL els' = true := by
                      unfold groupPassedL
                      rw [List.all_eq_true]
                      intro kd hkd
                      exact hall kd hkd
                    rw [hgp] at hgt
                    cases hgt
              | true =>
                  simp only [hgp, Bool.not_true, Bool.false_or, if_neg,
                    EVal.passedOf, EVal.elems, Bool.false_eq_true, not_false_eq_true]
                  constructor
                  · intro _
                    refine ⟨trivial, ?_⟩
                    have := hgp
                    unfold groupPassedL at this
                    rw [List.all_eq_true] at this
                    intro kd hkd
                    exact this kd hkd
                  · intro _
                    trivial

/-- Unfolding equation for `to_dict_entries` on a group node. -/
theorem to_dict_entries_group (p : Bool) (fr : List String) (fe : List PyExc)
    (els : List (String × EVal)) :
    (EVal.group p fr fe els).to_dict_entries =
      (if p then [] else [("group", ErrTree.reasons fr)]) ++ entriesOfChildren els :=
  rfl

/-- Claim C7, amended.  With `root=True`, `to_dict` returns the
`{element_name: "Passed"}` sentinel exactly when the node's own `passed`
flag is true, every stored child validation's `passed` flag is true and,
for group children, every grandchild validation's `passed` flag is true.
Failures recorded deeper than two levels below stale `passed` flags are
not reflected: only a group child's `group_passed` — one level of
lookahead — is consulted, so the sentinel is not equivalent to the whole
tree passing.  When the result is not the sentinel, failing direct
children appear with their `fail_reasons` (items) or recursively
(groups), and passing children are omitted. -/
theorem c7_amended (p : Bool) (fr : List String) (fe : List PyExc)
    (els : List (String × EVal)) (name : String) :
    (EVal.to_dict (EVal.group p fr fe els) name true =
        ErrTree.node [(name, ErrTree.passedSentinel)]) ↔
      (p = true ∧ ∀ kc ∈ els, EVal.passedOf kc.2 = true ∧
        ∀ kd ∈ EVal.elems kc.2, EVal.passedOf kd.2 = true) := by
  have hd := entriesOfChildren_eq_nil els
  unfold EVal.to_dict
  rw [to_dict_entries_group]
  cases hp : p with
  | false =>
      simp only [Bool.false_eq_true, if_false, List.cons_append]
      constructor
      · intro h
        simp at h
      · rintro ⟨h, -⟩
        cases h
  | true =>
      simp only [if_true, List.nil_append]
      by_cases he : entriesOfChildren els = []
      · rw [he]
        simp only [List.isEmpty_nil, if_true]
        constructor
        · intro _
          exact ⟨trivial, hd.mp he⟩
        · intro _
          trivial
      · have hne : (entriesOfChildren els).isEmpty = false := by
          cases hE : entriesOfChildren els with
          | nil => exact absurd hE he
          | cons a t => rfl
        rw [hne]
        simp only [Bool.false_eq_true, if_false]
        constructor
        · intro h
          simp at h
        · rintro ⟨-, hall⟩
          exact absurd (hd.mpr hall) he

/-- A dict entry naming no attribute of the group leaves the children
untouched (`getattr` returns `None` and both `isinstance` tests fail). -/
theorem applyEntryMap_not_mem (ch : List (String × ConfigElem)) (k : String) (v : ExtVal)
    (h : ∀ e ∈ ch, e.1 ≠ k) : applyEntryMap ch k v = ch := by
  induction ch with
  | nil => simp [applyEntryMap]
  | cons hd t ih =>
      obtain ⟨k0, e0⟩ := hd
      have hk0 : k0 ≠ k := h (k0, e0) (List.mem_cons_self _ _)
      rw [applyEntryMap, if_neg (by simp [hk0]), ih (fun e he => h e (List.mem_cons_of_mem _ he))]

/-- A dict entry for one name does not change the lookup of any other
name. -/
theorem lookup_applyEntryMap_ne (ch : List (String × ConfigElem)) (k k' : String)
    (v : ExtVal) (h : k ≠ k') :
    lookupKey k (applyEntryMap ch k' v) = lookupKey k ch := by
  induction ch with
  | nil => simp [applyEntryMap]
  | cons hd t ih =>
      obtain ⟨k0, e0⟩ := hd
      by_cases h0 : k0 = k'
      · subst h0
        rw [applyEntryMap, if_pos (by simp), lookupKey, lookupKey,
          if_neg (by simp [Ne.symm h]), if_neg (by simp [Ne.symm h]), ih]
      · rw [applyEntryMap, if_neg (by simp [h0]), lookupKey, lookupKey]
        by_cases hk : k0 = k
        · rw [if_pos (by simp [hk]), if_pos (by simp [hk])]
        · rw [if_neg (by simp [hk]), if_neg (by simp [hk]), ih]

/-- A dict entry for a name rewrites exactly the first child of that name
through `applyOne` (attribute names are unique, so this is the child). -/
theorem lookup_applyEntryMap_self (ch : List (String × ConfigElem)) (k : String)
    (v : ExtVal) :
    lookupKey k (applyEntryMap ch k v) =
      Option.map (fun e => applyOne e v) (lookupKey k ch) := by
  induction ch with
  | nil => simp [applyEntryMap, lookupKey]
  | cons hd t ih =>
      obtain ⟨k0, e0⟩ := hd
      by_cases hk : k0 = k
      · rw [applyEntryMap, if_pos (by simp [hk]), lookupKey, lookupKey,
          if_pos (by simp [hk]), if_pos (by simp [hk])]
        rfl
      · rw [applyEntryMap, if_neg (by simp [hk]), lookupKey, lookupKey,
          if_neg (by simp [hk]), if_neg (by simp [hk]), ih]

/-- Children not named in the dict are unchanged by the whole loop. -/
theorem lookup_applyData_not_mem (ch : List (String × ConfigElem))
    (data : List (String × ExtVal)) (k : String)
    (h : ∀ e ∈ data, e.1 ≠ k) :
    lookupKey k (applyData ch data) = lookupKey k ch := by
  induction data generalizing ch with
  | nil => simp [applyData]
  | cons hd t ih =>
      obtain ⟨k1, v1⟩ := hd
      have hk1 : k1 ≠ k := h (k1, v1) (List.mem_cons_self _ _)
      rw [applyData, ih _ (fun e he => h e (List.mem_cons_of_mem _ he)),
        lookup_applyEntryMap_ne _ _ _ _ (Ne.symm hk1)]

/-- Claim C8, confirmed.  `set_from_dict(data, root)` ignores unknown
keys, leaves children not named in `data` unchanged, dispatches a dict
value on a group child to the recursive (`root=False`, no validation)
update and a scalar value on an item child to `set_value`, skips the two
mismatched combinations, and triggers a full `validate()` exactly when
`root` is true, after all assignments. -/
theorem c8_confirmed (doc : Option String) (ch ch2 : List (String × ConfigElem))
    (gv gv2 : EVal) (data dd : List (String × ExtVal)) (k : String) (v : ExtVal)
    (c : ConfigItem) (s : PyVal) (d2 : Option String) :
    ((∀ e ∈ ch, e.1 ≠ k) → applyEntryMap ch k v = ch) ∧
    ((∀ e ∈ data, e.1 ≠ k) → lookupKey k (applyData ch data) = lookupKey k ch) ∧
    (lookupKey k (applyEntryMap ch k v) =
      Option.map (fun e => applyOne e v) (lookupKey k ch)) ∧
    (applyOne (ConfigElem.item c) (ExtVal.scalar s) = ConfigElem.item (c.set_value s)) ∧
    (applyOne (ConfigElem.group d2 ch2 gv2) (ExtVal.dict dd) =
      ConfigElem.group d2 (applyData ch2 dd) gv2) ∧
    (applyOne (ConfigElem.item c) (ExtVal.dict dd) = ConfigElem.item c) ∧
    (applyOne (ConfigElem.group d2 ch2 gv2) (ExtVal.scalar s) =
      ConfigElem.group d2 ch2 gv2) ∧
    (ConfigElem.set_from_dict (ConfigElem.group doc ch gv) data false =
      Except.ok (ConfigElem.group doc (applyData ch data) gv)) ∧
    (∀ g2 v2,
      ConfigElem.runValidate (ConfigElem.group doc (applyData ch data) gv) =
          Except.ok (g2, v2) →
      ConfigElem.set_from_dict (ConfigElem.group doc ch gv) data true = Except.ok g2) := by
  refine ⟨applyEntryMap_not_mem ch k v, lookup_applyData_not_mem ch data k,
    lookup_applyEntryMap_self ch k v, by simp [applyOne], by simp [applyOne],
    by simp [applyOne], by simp [applyOne], ?_, ?_⟩
  · rfl
  · intro g2 v2 h
    unfold ConfigElem.set_from_dict
    dsimp only
    rw [h]
    rfl

/-- Witness for the confirmed C8 theorem at concrete inputs: an unknown
key is ignored, an untouched child keeps its lookup, and a root-level
`set_from_dict` applies the scalar and validates the updated tree. -/
theorem c8_confirmed_witness :
    applyEntryMap [("a", ConfigElem.item itemIntOne)] "zz" (ExtVal.scalar (PyVal.int 9)) =
      [("a", ConfigElem.item itemIntOne)] ∧
    lookupKey "zz"
        (applyData [("a", ConfigElem.item itemIntOne)] [("a", ExtVal.scalar (PyVal.int 7))]) =
      lookupKey "zz" [("a", ConfigElem.item itemIntOne)] ∧
    ConfigElem.set_from_dict
        (ConfigElem.group Option.none [("a", ConfigElem.item itemIntOne)]
          (EVal.group true [] [] []))
        [("a", ExtVal.scalar (PyVal.int 7))] true =
      Except.ok
        (ConfigElem.group Option.none
          [("a", ConfigElem.item
            { value := PyVal.int 7, doc := Option.none, properties := propsIntStrict,
              validation := {} })]
          (EVal.group true [] [] [("a", EVal.item {})])) := by
  have t := c8_confirmed Option.none [("a", ConfigElem.item itemIntOne)] []
    (EVal.group true [] [] []) (EVal.group true [] [] [])
    [("a", ExtVal.scalar (PyVal.int 7))] [] "zz" (ExtVal.scalar (PyVal.int 9))
    itemIntOne (PyVal.int 0) Option.none
  have hap : applyData [("a", ConfigElem.item itemIntOne)] [("a", ExtVal.scalar (PyVal.int 7))] =
      [("a", ConfigElem.item
        { value := PyVal.int 7, doc := Option.none, properties := propsIntStrict,
          validation := {} })] := by
    simp [applyData, applyEntryMap, applyOne, ConfigItem.set_value, itemIntOne]
  exact ⟨t.1 (by decide), t.2.1 (by decide),
    t.2.2.2.2.2.2.2.2
      (ConfigElem.group Option.none
        [("a", ConfigElem.item
          { value := PyVal.int 7, doc := Option.none, properties := propsIntStrict,
            validation := {} })]
        (EVal.group true [] [] [("a", EVal.item {})]))
      (EVal.group true [] [] [("a", EVal.item {})]) (by rw [hap]; rfl)⟩

/-- Same-shaped child lists carry the same names in the same order. -/
theorem sameShapeList_keys (a b : List (String × SNode))
    (h : sameShapeList a b = true) : a.map Prod.fst = b.map Prod.fst := by
  induction a generalizing b with
  | nil =>
      cases b with
      | nil => rfl
      | cons y ys => simp [sameShapeList] at h
  | cons x xs ih =>
      cases b with
      | nil => simp [sameShapeList] at h
      | cons y ys =>
          obtain ⟨k, n⟩ := x
          obtain ⟨k', n'⟩ := y
          simp only [sameShapeList, Bool.and_eq_true, beq_iff_eq] at h
          obtain ⟨⟨hk, -⟩, ht⟩ := h
          simp [hk, ih ys ht]

/-- `to_dict(values_only=True)` keeps the child names. -/
theorem toValuesDictList_keys (l : List (String × SNode)) :
    (toValuesDictList l).map Prod.fst = l.map Prod.fst := by
  induction l with
  | nil => rfl
  | cons x xs ih =>
      obtain ⟨k, n⟩ := x
      simp [toValuesDictList, ih]

/-- An external entry naming no child leaves the children untouched. -/
theorem sfdEntry_not_mem (ch : List (String × SNode)) (k : String) (v : ExtVal)
    (h : ∀ e ∈ ch, e.1 ≠ k) : sfdEntry ch k v = ch := by
  induction ch with
  | nil => simp [sfdEntry]
  | cons hd t ih =>
      obtain ⟨k0, n0⟩ := hd
      have hk0 : k0 ≠ k := h _ (List.mem_cons_self _ _)
      rw [sfdEntry, if_neg (by simp [hk0]),
        ih (fun e he => h e (List.mem_cons_of_mem _ he))]

/-- A head child whose name no external entry mentions survives the whole
`set_from_dict` loop unchanged. -/
theorem sfdList_cons_not_mem (k : String) (n : SNode) (ch : List (String × SNode))
    (d : List (String × ExtVal)) (h : ∀ e ∈ d, e.1 ≠ k) :
    sfdList ((k, n) :: ch) d = (k, n) :: sfdList ch d := by
  induction d generalizing ch with
  | nil => simp [sfdList]
  | cons hd t ih =>
      obtain ⟨k1, v1⟩ := hd
      have hk1 : k1 ≠ k := h _ (List.mem_cons_self _ _)
      have h' : ∀ e ∈ t, e.1 ≠ k := fun e he => h e (List.mem_cons_of_mem _ he)
      calc sfdList ((k, n) :: ch) ((k1, v1) :: t)
          = sfdList (sfdEntry ((k, n) :: ch) k1 v1) t := by rw [sfdList]
        _ = sfdList ((k, n) :: sfdEntry ch k1 v1) t := by
              rw [sfdEntry, if_neg (by simp [Ne.symm hk1])]
        _ = (k, n) :: sfdList (sfdEntry ch k1 v1) t := ih _ h'
        _ = (k, n) :: sfdList ch ((k1, v1) :: t) := by rw [sfdList]

mutual
/-- Modelled from the spec: the round-trip over one schema node — a
default tree of the fixed schema shape, populated from the values-only
serialization of any same-shaped tree with duplicate-free child names,
reproduces that tree. -/
theorem roundTripNode (d r : SNode) (hs : sameShape d r = true)
    (hw : r.wfKeys = true) : d.setFromDict r.toValuesDict = r := by
  cases d with
  | item v =>
      cases r with
      | item w => simp [SNode.toValuesDict, SNode.setFromDict]
      | group rch => simp [sameShape] at hs
  | group ch =>
      cases r with
      | item w => simp [sameShape] at hs
      | group rch =>
          rw [sameShape] at hs
          rw [SNode.wfKeys, Bool.and_eq_true] at hw
          rw [SNode.toValuesDict, SNode.setFromDict,
            roundTripList ch rch hs hw.1 hw.2]

/-- Modelled from the spec: the round-trip over aligned child lists. -/
theorem roundTripList (ch rch : List (String × SNode))
    (hs : sameShapeList ch rch = true)
    (hnd : keysND (rch.map Prod.fst) = true) (hw : wfKeysList rch = true) :
    sfdList ch (toValuesDictList rch) = rch := by
  cases ch with
  | nil =>
      cases rch with
      | nil => simp [toValuesDictList, sfdList]
      | cons y ys => simp [sameShapeList] at hs
  | cons x xs =>
      cases rch with
      | nil => simp [sameShapeList] at hs
      | cons y ys =>
          obtain ⟨k, n⟩ := x
          obtain ⟨k', n'⟩ := y
          simp only [sameShapeList, Bool.and_eq_true, beq_iff_eq] at hs
          obtain ⟨⟨hk, hsn⟩, hst⟩ := hs
          subst hk
          rw [List.map_cons, keysND, Bool.and_eq_true] at hnd
          obtain ⟨hnotk, hndt⟩ := hnd
          rw [wfKeysList, Bool.and_eq_true] at hw
          obtain ⟨hwn, hwt⟩ := hw
          have hanyf : (ys.map Prod.fst).any (fun x => x == k) = false := by
            cases hA : (ys.map Prod.fst).any (fun x => x == k) with
            | false => rfl
            | true => rw [hA] at hnotk; cases hnotk
          have hk_not_keys : ∀ s ∈ ys.map Prod.fst, s ≠ k := by
            intro s hsm
            rw [List.any_eq_false] at hanyf
            have := hanyf s hsm
            simpa using this
          have hk_not_ys : ∀ e ∈ ys, e.1 ≠ k := fun e he =>
            hk_not_keys e.1 (List.mem_map_of_mem Prod.fst he)
          have hk_not_xs : ∀ e ∈ xs, e.1 ≠ k := by
            intro e he
            apply hk_not_keys e.1
            rw [← sameShapeList_keys xs ys hst]
            exact List.mem_map_of_mem Prod.fst he
          have hk_not_tvd : ∀ e ∈ toValuesDictList ys, e.1 ≠ k := by
            intro e he
            apply hk_not_keys e.1
            rw [← toValuesDictList_keys ys]
            exact List.mem_map_of_mem Prod.fst he
          calc sfdList ((k, n) :: xs) (toValuesDictList ((k, n') :: ys))
              = sfdList (sfdEntry ((k, n) :: xs) k n'.toValuesDict)
                  (toValuesDictList ys) := by rw [toValuesDictList, sfdList]
            _ = sfdList ((k, n.setFromDict n'.toValuesDict) :: xs)
                  (toValuesDictList ys) := by
                    rw [sfdEntry, if_pos (by simp), sfdEntry_not_mem xs k _ hk_not_xs]
            _ = sfdList ((k, n') :: xs) (toValuesDictList ys) := by
                    rw [roundTripNode n n' hsn hwn]
            _ = (k, n') :: sfdList xs (toValuesDictList ys) :=
                    sfdList_cons_not_mem k n' xs _ hk_not_tvd
            _ = (k, n') :: ys := by rw [roundTripList xs ys hst hndt hwt]
end

/-- Claim C9, confirmed against the spec model.  Rebuilding a root from
`to_dict(values_only=True)` through the `create`/`set_from_dict` path
reproduces the tree: for any default schema tree `d0` and any populated
tree of the same shape with duplicate-free child names, the
current-layout rebuild is structurally equal to the original; and the
legacy-layout path is the same `set_from_dict` after the fixed
key-translation table, so trees populated from either external layout
satisfy the same round-trip. -/
theorem c9_confirmed (d0 : SNode) (rch : List (String × SNode))
    (table : List (String × String)) (L : List (String × ExtVal))
    (hs : sameShape d0 (SNode.group rch) = true)
    (hw : (SNode.group rch).wfKeys = true) :
    createFromMapping d0 table false (toValuesDictList rch) = SNode.group rch ∧
    createFromMapping d0 table true L =
      SNode.setFromDict d0 (ExtVal.dict (legacyTranslate table L)) := by
  constructor
  · unfold createFromMapping
    simp only [Bool.false_eq_true, if_false]
    have h := roundTripNode d0 (SNode.group rch) hs hw
    rw [SNode.toValuesDict] at h
    exact h
  · unfold createFromMapping
    simp

/-- A two-level default schema tree. -/
def schemaD0 : SNode :=
  SNode.group
    [("red", SNode.group [("skill", SNode.item (PyVal.float 0))]),
     ("on", SNode.item (PyVal.bool false))]

/-- A populated tree of the same shape as `schemaD0`. -/
def schemaR0ch : List (String × SNode) :=
  [("red", SNode.group [("skill", SNode.item (PyVal.float 5))]),
   ("on", SNode.item (PyVal.bool true))]

/-- Witness for the confirmed C9 theorem at a concrete schema. -/
theorem c9_confirmed_witness :
    createFromMapping schemaD0 [] false (toValuesDictList schemaR0ch) =
      SNode.group schemaR0ch ∧
    createFromMapping schemaD0 [] true [] =
      SNode.setFromDict schemaD0 (ExtVal.dict (legacyTranslate [] [])) :=
  c9_confirmed schemaD0 schemaR0ch [] [] rfl rfl
